import Mathlib

/-!
candymatch: the frame loop, the input decoders and the rectangle predicates

A shallow embedding of `candymatch.c`.

Conventions of the embedding:

* a C `int` is a Lean `Int` within `INT_MIN .. INT_MAX`; the result of every
  `int` addition and subtraction is wrapped to 32 bits by `toInt32`, which is
  what the compiled program does on overflow, and a stored field that is
  compared with such a result is read through `toInt32` as well, which for a
  field that holds an `int` is the field itself;
* `Uint32` arithmetic (the millisecond tick counts) wraps modulo `2 ^ 32`, as
  C defines it, and the wrap is written out;
* a `char` holding a direction mask is the natural number of its bit pattern;
* the joystick is the list of its axis readings and the list of its button
  states; the length of the list is what `SDL_JoystickNumAxes` or
  `SDL_JoystickNumButtons` returns;
* a texture handle `cake_textures[i]` is represented by its index `i`.
-/

namespace Candymatch

/-! ## Constants -/

def SCREEN_WIDTH : Int := 800
def SCREEN_HEIGHT : Int := 600
def MAX_VELOCITY : Int := 20
def MIN_VELOCITY : Int := 10
def WINNING_SCORE : Int := 10

/-- Bits of `enum Direction`. -/
def UP : Nat := 1
def DOWN : Nat := 2
def LEFT : Nat := 4
def RIGHT : Nat := 8

/-- Values of `enum Button`. -/
def B : Int := 0
def A : Int := 1
def START : Int := 9
def SELECT : Int := 8

/-! ## Machine integers -/

/-- The largest value of a C `int`. -/
def INT_MAX : Int := 2147483647

/-- The smallest value of a C `int`. -/
def INT_MIN : Int := -2147483648

/-- The integer is the value of a C `int`. -/
def IsInt (z : Int) : Prop := INT_MIN ≤ z ∧ z ≤ INT_MAX

/-- Conversion of an integer to `Uint32`. -/
def toUint32 (z : Int) : Int := z % 2 ^ 32

/-- Conversion of a `Uint32` to `int` (two's complement); on an exact sum or
difference of two `int`s it gives the 32-bit result of the operation. -/
def toInt32 (z : Int) : Int :=
  if z % 2 ^ 32 < 2 ^ 31 then z % 2 ^ 32 else z % 2 ^ 32 - 2 ^ 32

/-! ## Data model -/

/-- The four `int` fields of `SDL_Rect`. -/
structure SDL_Rect where
  x : Int
  y : Int
  w : Int
  h : Int
  deriving DecidableEq, Repr

/-- The `struct Entity`: a rectangle and a texture handle, the handle being
the index of the texture in `cake_textures`. -/
structure Entity where
  rect : SDL_Rect
  texture : Int
  deriving DecidableEq, Repr

/-! ## Rectangle predicates -/

/-- The function `obj_touching`; the four sums are `int` sums. -/
def obj_touching (rect1 rect2 : SDL_Rect) : Bool :=
  !(decide (toInt32 rect1.x ≥ toInt32 (rect2.x + rect2.w))) &&
  !(decide (toInt32 rect1.y ≥ toInt32 (rect2.y + rect2.h))) &&
  !(decide (toInt32 rect2.x ≥ toInt32 (rect1.x + rect1.w))) &&
  !(decide (toInt32 rect2.y ≥ toInt32 (rect1.y + rect1.h)))

/-- The function `obj_in_bounds`. -/
def obj_in_bounds (rect : SDL_Rect) : Bool :=
  if rect.x > SCREEN_WIDTH then false
  else if rect.x < 0 then false
  else if rect.y > SCREEN_HEIGHT then false
  else if rect.y < 0 then false
  else true

/-- Two rectangles overlap when some integer point lies in both half-open
boxes. -/
def Overlap (a b : SDL_Rect) : Prop :=
  ∃ px py : Int,
    a.x ≤ px ∧ px < a.x + a.w ∧ a.y ≤ py ∧ py < a.y + a.h ∧
    b.x ≤ px ∧ px < b.x + b.w ∧ b.y ≤ py ∧ py < b.y + b.h

/-- The rectangle has `int` fields and its far edges `x + w` and `y + h` are
values of `int` too: the two sums do not overflow. -/
def Representable (r : SDL_Rect) : Prop :=
  IsInt r.x ∧ IsInt r.y ∧ IsInt r.w ∧ IsInt r.h ∧ IsInt (r.x + r.w) ∧ IsInt (r.y + r.h)

/-! ## Input decoders -/

/-- The loop of `get_button` from index `i` on, over the states of the
buttons `i, i+1, ...`. -/
def get_button_loop (i : Nat) : List Bool → Int
  | [] => -1
  | pressed :: rest => if pressed then (i : Int) else get_button_loop (i + 1) rest

/-- The function `get_button`: the joystick is the list of its button
states. -/
def get_button (buttons : List Bool) : Int :=
  get_button_loop 0 buttons

/-- One iteration of the loop body of `get_direction` for axis `i` reading
`axis`. -/
def get_direction_body (i : Nat) (axis : Int) (direction : Nat) : Nat :=
  if axis ≠ 0 then
    if i = 1 then
      if axis < 0 then direction ||| UP else direction ||| DOWN
    else if i = 0 then
      if axis < 0 then direction ||| LEFT else direction ||| RIGHT
    else direction
  else direction

/-- The loop of `get_direction` from index `i` on, over the readings of the
axes `i, i+1, ...`. -/
def get_direction_loop (i : Nat) (direction : Nat) : List Int → Nat
  | [] => direction
  | axis :: rest => get_direction_loop (i + 1) (get_direction_body i axis direction) rest

/-- The function `get_direction`: the joystick is the list of its axis
readings. -/
def get_direction (axes : List Int) : Nat :=
  get_direction_loop 0 0 axes

/-! ## Frame pacing -/

/-- The argument of `SDL_Delay` at the end of a tick: `ticks_at_start` is what
`SDL_GetTicks` returned at the start of the tick, `ticks_now` what it returns
in the call inside the argument. `start_tick` is an `int`; in
`start_tick - SDL_GetTicks()` it is converted to `Uint32` and the two
subtractions are unsigned. -/
def frame_delay (ticks_at_start ticks_now : Int) : Int :=
  let start_tick : Int := toInt32 ticks_at_start
  toUint32 (toUint32 20 - toUint32 (toUint32 start_tick - toUint32 ticks_now))

/-! ## The frame loop -/

def x_vel : Int := 10
def y_vel : Int := 10

/-- The variables of `main` that the loop changes. -/
structure GameState where
  cake : Entity
  cake_frame : Int
  deriving DecidableEq, Repr

/-- The entity and the frame counter on entry to the loop. -/
def initial_state : GameState :=
  { cake := { rect := { x := 0, y := 0, w := 22 * 4, h := 22 * 4 }, texture := 0 },
    cake_frame := 1 }

/-- The movement step of one tick, `if (dir) { ... }`, on the rectangle of
the entity; the differences `SCREEN_HEIGHT - h`, `SCREEN_WIDTH - w` and the
steps by the velocity are `int` operations. -/
def move (dir : Nat) (r : SDL_Rect) : SDL_Rect :=
  if dir ≠ 0 then
    let r1 : SDL_Rect :=
      if dir &&& DOWN ≠ 0 then
        if toInt32 r.y < toInt32 (SCREEN_HEIGHT - r.h) then
          { r with y := toInt32 (r.y + y_vel) }
        else r
      else r
    let r2 : SDL_Rect :=
      if dir &&& UP ≠ 0 then
        if r1.y > 0 then { r1 with y := toInt32 (r1.y - y_vel) } else r1
      else r1
    let r3 : SDL_Rect :=
      if dir &&& RIGHT ≠ 0 then
        if toInt32 r2.x < toInt32 (SCREEN_WIDTH - r2.w) then
          { r2 with x := toInt32 (r2.x + x_vel) }
        else r2
      else r2
    let r4 : SDL_Rect :=
      if dir &&& LEFT ≠ 0 then
        if r3.x > 0 then { r3 with x := toInt32 (r3.x - x_vel) } else r3
      else r3
    r4
  else r

/-- Conversion of an `int` to `char`, as in `char button = get_button(...)`,
for a signed 8-bit `char`. With an unsigned `char` the value differs by a
multiple of 256 only when it is negative, and the three labels of the switch
are matched by the same button codes. -/
def toChar (z : Int) : Int := (z + 128) % 256 - 128

/-- How a tick ends: the loop goes on, or control leaves it by
`goto exit_gameloop`. -/
inductive Flow where
  | next
  | exit_gameloop
  deriving DecidableEq, Repr

/-- The `switch (button)` of one tick; `button` is the value of the `char`.
The increment of `cake_frame` is an `int` operation. -/
def button_switch (button : Int) (s : GameState) : GameState × Flow :=
  if button = A then
    ({ cake := { s.cake with texture := Int.tmod s.cake_frame 13 },
       cake_frame := toInt32 (s.cake_frame + 1) }, Flow.next)
  else if button = B then (s, Flow.next)
  else if button = START then (s, Flow.exit_gameloop)
  else (s, Flow.next)

/-- The update of one tick, from the direction mask that `get_direction`
returned and the button code that `get_button` returned. -/
def tick (dir : Nat) (button_code : Int) (s : GameState) : GameState × Flow :=
  button_switch (toChar button_code)
    { s with cake := { s.cake with rect := move dir s.cake.rect } }

/-- The input of one iteration of the loop: whether `game_running` polls a
quit event, and what the two decoders return. -/
structure TickInput where
  quit : Bool
  dir : Nat
  button_code : Int
  deriving DecidableEq, Repr

/-- The loop `while (game_running()) { ... }` over the inputs of successive
iterations: it stops at a quit event, at `goto exit_gameloop`, and when the
inputs are used up. -/
def game_loop (s : GameState) : List TickInput → GameState
  | [] => s
  | i :: rest =>
    if i.quit then s
    else
      match tick i.dir i.button_code s with
      | (s', Flow.next) => game_loop s' rest
      | (s', Flow.exit_gameloop) => s'

/-- Whether an iteration reaches the `case A` label: the `char` that holds
the button code equals `A`. -/
def presses_A (i : TickInput) : Bool := decide (toChar i.button_code = A)

/-- The iterations of `ins` all run to their end: none polls a quit event and
none leaves by `case START`. -/
def all_run (ins : List TickInput) : Prop :=
  ∀ i ∈ ins, i.quit = false ∧ toChar i.button_code ≠ START

/-- The texture indices assigned by `k` successive iterations that press
button 1 and nothing else, from the state `s`. -/
def textures_of_A_presses (s : GameState) : Nat → List Int
  | 0 => []
  | k + 1 =>
    (tick 0 1 s).1.cake.texture :: textures_of_A_presses (tick 0 1 s).1 k

/-! ## The loop as a state machine, and `main` -/

/-- The event type `SDL_QUIT` of SDL2. -/
def SDL_QUIT : Nat := 256

/-- The function `game_running` over the types of the queued events, in the
order in which `SDL_PollEvent` hands them out. -/
def game_running : List Nat → Bool
  | [] => true
  | type :: rest => if type = SDL_QUIT then false else game_running rest

/-- What one iteration of the loop reads: the queued events and the state of
the joystick. -/
structure Devices where
  events : List Nat
  axes : List Int
  buttons : List Bool
  deriving DecidableEq, Repr

/-- The three readings of one iteration: `game_running()`,
`get_direction(joystick)` and `get_button(joystick)`. -/
def read_devices (d : Devices) : TickInput :=
  { quit := !game_running d.events,
    dir := get_direction d.axes,
    button_code := get_button d.buttons }

/-- The two states of the loop. -/
inductive LoopState where
  | RUNNING
  | EXITING
  deriving DecidableEq, Repr

/-- The state of the loop after one iteration begun in `RUNNING`: the loop
ends when `game_running()` is false and when the switch jumps to
`exit_gameloop`. -/
def transition (i : TickInput) (s : GameState) : LoopState :=
  if i.quit then LoopState.EXITING
  else
    match (tick i.dir i.button_code s).2 with
    | Flow.next => LoopState.RUNNING
    | Flow.exit_gameloop => LoopState.EXITING

/-- Whether the loop ends within the iterations `ins`. -/
def loop_ends (s : GameState) : List TickInput → Bool
  | [] => false
  | i :: rest =>
    if i.quit then true
    else
      match tick i.dir i.button_code s with
      | (s', Flow.next) => loop_ends s' rest
      | (_, Flow.exit_gameloop) => true

/-- The flag `IMG_INIT_PNG` of SDL2_image. -/
def IMG_INIT_PNG : Nat := 2

/-- The macro `EXIT_FAILURE` of `stdlib.h`, with its usual value. -/
def EXIT_FAILURE : Int := 1

/-- What a run of `main` comes to: whether control reached the frame loop,
and the exit status, `none` while the loop has not ended. -/
structure Run where
  entered_loop : Bool
  status : Option Int
  deriving DecidableEq, Repr

/-- The function `main` over the results of its collaborators: `img_flags` is
what `IMG_Init(IMG_INIT_PNG)` returns, `num_joysticks` what
`SDL_NumJoysticks()` returns, and `ins` are the readings of the successive
iterations of the loop. -/
def main (img_flags : Nat) (num_joysticks : Int) (ins : List TickInput) : Run :=
  if img_flags &&& IMG_INIT_PNG = 0 then
    { entered_loop := false, status := some EXIT_FAILURE }
  else if num_joysticks ≠ 0 then
    { entered_loop := true,
      status := if loop_ends initial_state ins then some 0 else none }
  else
    { entered_loop := false, status := some EXIT_FAILURE }

/-- The rectangle has `int` fields and the four `int` operations of a step
down and to the right, `SCREEN_WIDTH - w`, `SCREEN_HEIGHT - h`, `x + x_vel`
and `y + y_vel`, do not overflow. -/
def DiagonalStepFits (r : SDL_Rect) : Prop :=
  IsInt r.x ∧ IsInt r.y ∧ IsInt r.w ∧ IsInt r.h ∧
    IsInt (SCREEN_WIDTH - r.w) ∧ IsInt (SCREEN_HEIGHT - r.h) ∧
    IsInt (r.x + x_vel) ∧ IsInt (r.y + y_vel)

/-- The positions that the entity takes from the initial state. -/
def Reachable (r : SDL_Rect) : Prop :=
  r.w = 88 ∧ r.h = 88 ∧ 10 ∣ r.x ∧ 10 ∣ r.y ∧
    0 ≤ r.x ∧ r.x ≤ 720 ∧ 0 ≤ r.y ∧ r.y ≤ 520

/-! ## Helper lemmas on machine integers -/

theorem toInt32_of_range (z : Int) (h0 : -2147483648 ≤ z) (h1 : z ≤ 2147483647) :
    toInt32 z = z := by
  simp only [toInt32]
  norm_num
  split_ifs <;> omega

theorem toInt32_of_isInt (z : Int) (h : IsInt z) : toInt32 z = z :=
  toInt32_of_range z h.1 h.2

/-! ## Helper lemmas on the decoders -/

theorem get_direction_loop_ignores (l : List Int) :
    ∀ (i d : Nat), 2 ≤ i → get_direction_loop i d l = d := by
  induction l with
  | nil => intro i d _; rfl
  | cons axis rest ih =>
    intro i d hi
    have h1 : i ≠ 1 := by omega
    have h0 : i ≠ 0 := by omega
    have hb : get_direction_body i axis d = d := by
      simp [get_direction_body, h1, h0]
    rw [get_direction_loop, hb]
    exact ih (i + 1) d (by omega)

theorem get_direction_nil : get_direction [] = 0 := rfl

theorem get_direction_single (x : Int) :
    get_direction [x] = get_direction_body 0 x 0 := rfl

theorem get_direction_pair (x y : Int) (rest : List Int) :
    get_direction (x :: y :: rest)
      = get_direction_body 1 y (get_direction_body 0 x 0) := by
  simp [get_direction, get_direction_loop, get_direction_loop_ignores]

/-- The mask decoded from the first two readings, one case per sign. -/
theorem get_direction_body_cases (x y : Int) :
    (x < 0 ∧ y < 0 ∧ get_direction_body 1 y (get_direction_body 0 x 0) = 5) ∨
    (x < 0 ∧ y = 0 ∧ get_direction_body 1 y (get_direction_body 0 x 0) = 4) ∨
    (x < 0 ∧ 0 < y ∧ get_direction_body 1 y (get_direction_body 0 x 0) = 6) ∨
    (x = 0 ∧ y < 0 ∧ get_direction_body 1 y (get_direction_body 0 x 0) = 1) ∨
    (x = 0 ∧ y = 0 ∧ get_direction_body 1 y (get_direction_body 0 x 0) = 0) ∨
    (x = 0 ∧ 0 < y ∧ get_direction_body 1 y (get_direction_body 0 x 0) = 2) ∨
    (0 < x ∧ y < 0 ∧ get_direction_body 1 y (get_direction_body 0 x 0) = 9) ∨
    (0 < x ∧ y = 0 ∧ get_direction_body 1 y (get_direction_body 0 x 0) = 8) ∨
    (0 < x ∧ 0 < y ∧ get_direction_body 1 y (get_direction_body 0 x 0) = 10) := by
  rcases lt_trichotomy x 0 with hx | hx | hx <;>
    rcases lt_trichotomy y 0 with hy | hy | hy
  · have hx0 : x ≠ 0 := by omega
    have hy0 : y ≠ 0 := by omega
    simp [get_direction_body, hx, hy, hx0, hy0, UP, DOWN, LEFT, RIGHT]
  · subst hy
    have hx0 : x ≠ 0 := by omega
    simp [get_direction_body, hx, hx0, UP, DOWN, LEFT, RIGHT]
  · have hx0 : x ≠ 0 := by omega
    have hy0 : y ≠ 0 := by omega
    have hy1 : ¬ y < 0 := by omega
    simp [get_direction_body, hx, hy, hx0, hy0, hy1, UP, DOWN, LEFT, RIGHT]
  · subst hx
    have hy0 : y ≠ 0 := by omega
    simp [get_direction_body, hy, hy0, UP, DOWN, LEFT, RIGHT]
  · subst hx; subst hy
    simp [get_direction_body]
  · subst hx
    have hy0 : y ≠ 0 := by omega
    have hy1 : ¬ y < 0 := by omega
    simp [get_direction_body, hy, hy0, hy1, UP, DOWN, LEFT, RIGHT]
  · have hx0 : x ≠ 0 := by omega
    have hx1 : ¬ x < 0 := by omega
    have hy0 : y ≠ 0 := by omega
    simp [get_direction_body, hx, hy, hx0, hx1, hy0, UP, DOWN, LEFT, RIGHT]
  · subst hy
    have hx0 : x ≠ 0 := by omega
    have hx1 : ¬ x < 0 := by omega
    simp [get_direction_body, hx, hx0, hx1, UP, DOWN, LEFT, RIGHT]
  · have hx0 : x ≠ 0 := by omega
    have hx1 : ¬ x < 0 := by omega
    have hy0 : y ≠ 0 := by omega
    have hy1 : ¬ y < 0 := by omega
    simp [get_direction_body, hx, hy, hx0, hx1, hy0, hy1, UP, DOWN, LEFT, RIGHT]

/-- The mask decoded from a single reading, one case per sign. -/
theorem get_direction_single_cases (x : Int) :
    (x < 0 ∧ get_direction_body 0 x 0 = 4) ∨
    (x = 0 ∧ get_direction_body 0 x 0 = 0) ∨
    (0 < x ∧ get_direction_body 0 x 0 = 8) := by
  rcases lt_trichotomy x 0 with hx | hx | hx
  · have hx0 : x ≠ 0 := by omega
    simp [get_direction_body, hx, hx0, LEFT, RIGHT]
  · subst hx
    simp [get_direction_body]
  · have hx0 : x ≠ 0 := by omega
    have hx1 : ¬ x < 0 := by omega
    simp [get_direction_body, hx, hx0, hx1, LEFT, RIGHT]

theorem get_direction_take_two (a : List Int) :
    get_direction (a.take 2) = get_direction a := by
  match a with
  | [] => rfl
  | [_] => rfl
  | x :: y :: rest =>
    rw [get_direction_pair]
    simp [get_direction_pair]

theorem get_button_loop_none (bs : List Bool) :
    ∀ k : Nat, get_button_loop k bs = -1 ↔ ∀ b ∈ bs, b = false := by
  induction bs with
  | nil => intro k; simp [get_button_loop]
  | cons b rest ih =>
    intro k
    cases b with
    | true =>
      simp only [get_button_loop, if_true]
      constructor
      · intro h; omega
      · intro h; simpa using h true (List.mem_cons_self _ _)
    | false =>
      simp [get_button_loop, ih (k + 1)]

theorem get_button_loop_range (bs : List Bool) :
    ∀ k : Nat, get_button_loop k bs = -1 ∨
      ((k : Int) ≤ get_button_loop k bs ∧ get_button_loop k bs < (k : Int) + bs.length) := by
  induction bs with
  | nil => intro k; left; rfl
  | cons b rest ih =>
    intro k
    cases b with
    | true =>
      right
      simp only [get_button_loop, if_true, List.length_cons]
      push_cast
      omega
    | false =>
      simp only [get_button_loop, Bool.false_eq_true, if_false, List.length_cons]
      rcases ih (k + 1) with h | h
      · left; exact h
      · right
        push_cast at h ⊢
        omega

theorem get_button_loop_index (bs : List Bool) :
    ∀ k i : Nat, get_button_loop k bs = ((k + i : Nat) : Int) ↔
      (bs[i]? = some true ∧ ∀ j, j < i → bs[j]? = some false) := by
  induction bs with
  | nil => intro k i; simp [get_button_loop]; omega
  | cons b rest ih =>
    intro k i
    cases b with
    | true =>
      simp only [get_button_loop, if_true]
      constructor
      · intro h
        have hi : i = 0 := by omega
        subst hi
        simp
      · rintro ⟨_, h2⟩
        cases i with
        | zero => simp
        | succ n => have := h2 0 (by omega); simp at this
    | false =>
      cases i with
      | zero =>
        simp only [get_button_loop, Bool.false_eq_true, if_false]
        constructor
        · intro h
          exfalso
          rcases get_button_loop_range rest (k + 1) with h' | h'
          · rw [h'] at h; omega
          · rw [h] at h'; push_cast at h'; omega
        · rintro ⟨h1, _⟩
          simp at h1
      | succ n =>
        simp only [get_button_loop, Bool.false_eq_true, if_false]
        have hk : ((k + (n + 1) : Nat) : Int) = ((k + 1 + n : Nat) : Int) := by
          push_cast; ring
        rw [hk, ih (k + 1) n]
        constructor
        · rintro ⟨h1, h2⟩
          refine ⟨by simpa using h1, ?_⟩
          intro j hj
          cases j with
          | zero => simp
          | succ m => simpa using h2 m (by omega)
        · rintro ⟨h1, h2⟩
          refine ⟨by simpa using h1, ?_⟩
          intro j hj
          simpa using h2 (j + 1) (by omega)

/-! ## The frame loop: position and pacing -/

set_option maxRecDepth 100000

/-- C1 (the position invariant `x ≤ 800 - w` does not hold on the code). From
the initial entity, 72 ticks with direction `RIGHT`, no quit event and no
button pressed leave the entity at `x = 720` with `w = 88`: the guard
`x < SCREEN_WIDTH - w` lets the step of 10 start at `x = 710`, so the
rectangle ends 8 pixels past `800 - w = 712`. -/
theorem position_overshoots_right_edge :
    (game_loop initial_state (List.replicate 72 ⟨false, RIGHT, -1⟩)).cake.rect
        = { x := 720, y := 0, w := 88, h := 88 } ∧
      ¬ ((game_loop initial_state (List.replicate 72 ⟨false, RIGHT, -1⟩)).cake.rect.x
          ≤ SCREEN_WIDTH
            - (game_loop initial_state (List.replicate 72 ⟨false, RIGHT, -1⟩)).cake.rect.w) := by
  decide

/-- C2 (the sleep length is not `20 - (c - s)` on the code). With the tick
count 100 at the start of the tick and 105 after rendering, the elapsed time
is 5 ms and the budget less the elapsed time is 15 ms, but the argument of
`SDL_Delay` is 25: the code subtracts `start_tick - SDL_GetTicks()`. -/
theorem frame_delay_adds_elapsed :
    frame_delay 100 105 = 25 ∧ (20 : Int) - (105 - 100) = 15 ∧
      frame_delay 100 105 ≠ 20 - (105 - 100) := by
  decide

/-! ## The input decoders -/

/-- C3 (direction decoding). For every list `a` of axis readings,
`get_direction a` has LEFT set iff axis 0 exists and reads negative, RIGHT set
iff axis 0 exists and reads positive, UP set iff axis 1 exists and reads
negative, DOWN set iff axis 1 exists and reads positive, and no bit above
these four; the readings of the axes from index 2 on do not change the
result, and the result is 0 when there are no axes and when axes 0 and 1 both
read 0. -/
theorem get_direction_decodes (a : List Int) :
    (get_direction a &&& LEFT ≠ 0 ↔ ∃ v, a[0]? = some v ∧ v < 0) ∧
    (get_direction a &&& RIGHT ≠ 0 ↔ ∃ v, a[0]? = some v ∧ 0 < v) ∧
    (get_direction a &&& UP ≠ 0 ↔ ∃ v, a[1]? = some v ∧ v < 0) ∧
    (get_direction a &&& DOWN ≠ 0 ↔ ∃ v, a[1]? = some v ∧ 0 < v) ∧
    get_direction a &&& (UP ||| DOWN ||| LEFT ||| RIGHT) = get_direction a ∧
    (∀ k, 4 ≤ k → (get_direction a).testBit k = false) ∧
    (∀ b : List Int, b.take 2 = a.take 2 → get_direction b = get_direction a) ∧
    (a = [] → get_direction a = 0) ∧
    (a[0]? = some 0 → a[1]? = some 0 → get_direction a = 0) := by
  have hbits : ∀ n : Nat, n < 16 → ∀ k, 4 ≤ k → n.testBit k = false := by
    intro n hn k hk
    apply Nat.testBit_eq_false_of_lt
    calc n < 2 ^ 4 := hn
      _ ≤ 2 ^ k := Nat.pow_le_pow_right (by decide) hk
  have htake : ∀ b : List Int, b.take 2 = a.take 2 → get_direction b = get_direction a := by
    intro b hb
    rw [← get_direction_take_two b, hb, get_direction_take_two]
  match a, htake with
  | [], htake =>
    refine ⟨?_, ?_, ?_, ?_, ?_, ?_, htake, ?_, ?_⟩ <;> simp [get_direction_nil]
  | [x], htake =>
    rw [get_direction_single]
    rcases get_direction_single_cases x with ⟨hx, hv⟩ | ⟨hx, hv⟩ | ⟨hx, hv⟩ <;>
      rw [hv] <;>
      refine ⟨?_, ?_, ?_, ?_, ?_, hbits _ (by decide), ?_, ?_, ?_⟩ <;>
      first
        | (intro b hb; rw [htake b hb, get_direction_single, hv])
        | (simp +decide [UP, DOWN, LEFT, RIGHT]; try omega)
  | x :: y :: rest, htake =>
    rw [get_direction_pair]
    rcases get_direction_body_cases x y with
      ⟨hx, hy, hv⟩ | ⟨hx, hy, hv⟩ | ⟨hx, hy, hv⟩ | ⟨hx, hy, hv⟩ | ⟨hx, hy, hv⟩ |
      ⟨hx, hy, hv⟩ | ⟨hx, hy, hv⟩ | ⟨hx, hy, hv⟩ | ⟨hx, hy, hv⟩ <;>
      rw [hv] <;>
      refine ⟨?_, ?_, ?_, ?_, ?_, hbits _ (by decide), ?_, ?_, ?_⟩ <;>
      first
        | (intro b hb; rw [htake b hb, get_direction_pair, hv])
        | (simp +decide [UP, DOWN, LEFT, RIGHT]; try omega)

/-- C4 (button decoding). For every list of button states, `get_button`
returns the index `i` exactly when button `i` is pressed and every button
below `i` is not; it returns -1 exactly when no button is pressed; and it
always returns -1 or the index of a button. On `[false, true, false]` it
returns 1, on `[true, true]` it returns 0, and on no buttons -1. -/
theorem get_button_lowest_pressed (bs : List Bool) :
    (∀ i : Nat, get_button bs = (i : Int) ↔
      (bs[i]? = some true ∧ ∀ j, j < i → bs[j]? = some false)) ∧
    (get_button bs = -1 ↔ ∀ b ∈ bs, b = false) ∧
    (get_button bs = -1 ∨ ∃ i : Nat, i < bs.length ∧ get_button bs = (i : Int)) ∧
    get_button [false, true, false] = 1 ∧
    get_button [true, true] = 0 ∧
    get_button [] = -1 := by
  refine ⟨?_, get_button_loop_none bs 0, ?_, by decide, by decide, by decide⟩
  · intro i
    have h := get_button_loop_index bs 0 i
    simpa [get_button] using h
  · rcases get_button_loop_range bs 0 with h | ⟨h1, h2⟩
    · left; exact h
    · right
      refine ⟨(get_button_loop 0 bs).toNat, ?_, ?_⟩
      · have : ((get_button_loop 0 bs).toNat : Int) = get_button_loop 0 bs :=
          Int.toNat_of_nonneg (by simpa using h1)
        omega
      · simp only [get_button]
        exact (Int.toNat_of_nonneg (by simpa using h1)).symm

/-! ## The rectangle predicates -/

/-- C5, as amended (`obj_touching` is the overlap test where no sum
overflows). For all rectangles `a` and `b` with `int` fields, of positive
width and height, whose far edges `x + w` and `y + h` are values of `int`,
`obj_touching a b` is true if and only if some integer point lies in both
rectangles. -/
theorem obj_touching_iff_overlap (a b : SDL_Rect)
    (ha : Representable a) (hb : Representable b)
    (haw : 0 < a.w) (hah : 0 < a.h) (hbw : 0 < b.w) (hbh : 0 < b.h) :
    obj_touching a b = true ↔ Overlap a b := by
  obtain ⟨hax, hay, _, _, haxw, hayh⟩ := ha
  obtain ⟨hbx, hby, _, _, hbxw, hbyh⟩ := hb
  have e1 := toInt32_of_isInt _ hax
  have e2 := toInt32_of_isInt _ hay
  have e3 := toInt32_of_isInt _ haxw
  have e4 := toInt32_of_isInt _ hayh
  have e5 := toInt32_of_isInt _ hbx
  have e6 := toInt32_of_isInt _ hby
  have e7 := toInt32_of_isInt _ hbxw
  have e8 := toInt32_of_isInt _ hbyh
  constructor
  · intro h
    simp only [obj_touching, e1, e2, e3, e4, e5, e6, e7, e8, Bool.and_eq_true,
      Bool.not_eq_true', decide_eq_false_iff_not, ge_iff_le, not_le] at h
    obtain ⟨⟨⟨h1, h2⟩, h3⟩, h4⟩ := h
    refine ⟨max a.x b.x, max a.y b.y, le_max_left _ _, ?_, le_max_left _ _, ?_,
      le_max_right _ _, ?_, le_max_right _ _, ?_⟩
    · exact max_lt (by omega) h3
    · exact max_lt (by omega) h4
    · exact max_lt h1 (by omega)
    · exact max_lt h2 (by omega)
  · rintro ⟨px, py, h1, h2, h3, h4, h5, h6, h7, h8⟩
    simp only [obj_touching, e1, e2, e3, e4, e5, e6, e7, e8, Bool.and_eq_true,
      Bool.not_eq_true', decide_eq_false_iff_not, ge_iff_le, not_le]
    exact ⟨⟨⟨by omega, by omega⟩, by omega⟩, by omega⟩

/-- Witness of C5: the initial rectangle of the entity and the same rectangle
moved by (10, 10). -/
theorem obj_touching_iff_overlap_witness :
    Representable ⟨0, 0, 88, 88⟩ ∧ Representable ⟨10, 10, 88, 88⟩ ∧
    (0 : Int) < (⟨0, 0, 88, 88⟩ : SDL_Rect).w ∧ (0 : Int) < (⟨0, 0, 88, 88⟩ : SDL_Rect).h ∧
    (0 : Int) < (⟨10, 10, 88, 88⟩ : SDL_Rect).w ∧ (0 : Int) < (⟨10, 10, 88, 88⟩ : SDL_Rect).h ∧
    (obj_touching ⟨0, 0, 88, 88⟩ ⟨10, 10, 88, 88⟩ = true ↔
      Overlap ⟨0, 0, 88, 88⟩ ⟨10, 10, 88, 88⟩) :=
  ⟨by simp +decide [Representable, IsInt], by simp +decide [Representable, IsInt],
   by decide, by decide, by decide, by decide,
   obj_touching_iff_overlap ⟨0, 0, 88, 88⟩ ⟨10, 10, 88, 88⟩
     (by simp +decide [Representable, IsInt]) (by simp +decide [Representable, IsInt])
     (by decide) (by decide) (by decide) (by decide)⟩

/-- Counterexample to C5 as stated. The rectangles `(2147483640, 0, 10, 10)`
and `(2147483645, 0, 10, 10)` have positive width and height and share the
point `(2147483645, 0)`, but `obj_touching` is false of them: the sum
`2147483645 + 10` overflows `int` and the first comparison goes the other
way. -/
theorem obj_touching_misses_overlap_on_overflow :
    (0 : Int) < (⟨2147483640, 0, 10, 10⟩ : SDL_Rect).w ∧
    (0 : Int) < (⟨2147483640, 0, 10, 10⟩ : SDL_Rect).h ∧
    (0 : Int) < (⟨2147483645, 0, 10, 10⟩ : SDL_Rect).w ∧
    (0 : Int) < (⟨2147483645, 0, 10, 10⟩ : SDL_Rect).h ∧
    Overlap ⟨2147483640, 0, 10, 10⟩ ⟨2147483645, 0, 10, 10⟩ ∧
    obj_touching ⟨2147483640, 0, 10, 10⟩ ⟨2147483645, 0, 10, 10⟩ = false ∧
    ¬ (obj_touching ⟨2147483640, 0, 10, 10⟩ ⟨2147483645, 0, 10, 10⟩ = true ↔
        Overlap ⟨2147483640, 0, 10, 10⟩ ⟨2147483645, 0, 10, 10⟩) := by
  have hov : Overlap ⟨2147483640, 0, 10, 10⟩ ⟨2147483645, 0, 10, 10⟩ :=
    ⟨2147483645, 0, by decide, by decide, by decide, by decide, by decide, by decide,
      by decide, by decide⟩
  have hf : obj_touching ⟨2147483640, 0, 10, 10⟩ ⟨2147483645, 0, 10, 10⟩ = false := by
    decide
  refine ⟨by decide, by decide, by decide, by decide, hov, hf, ?_⟩
  intro h
  have := h.mpr hov
  rw [hf] at this
  cases this

/-- C6 (symmetry of `obj_touching`). For all rectangles `a` and `b`, whatever
their fields, `obj_touching a b = obj_touching b a`. -/
theorem obj_touching_symm (a b : SDL_Rect) : obj_touching a b = obj_touching b a := by
  simp only [obj_touching]
  cases decide (toInt32 a.x ≥ toInt32 (b.x + b.w)) <;>
    cases decide (toInt32 a.y ≥ toInt32 (b.y + b.h)) <;>
    cases decide (toInt32 b.x ≥ toInt32 (a.x + a.w)) <;>
    cases decide (toInt32 b.y ≥ toInt32 (a.y + a.h)) <;> rfl

/-- C7, as amended (reflexivity of `obj_touching` where no sum overflows).
Every rectangle with `int` fields, of positive width and height, whose far
edges `x + w` and `y + h` are values of `int`, touches itself. -/
theorem obj_touching_self (a : SDL_Rect) (ha : Representable a)
    (hw : 0 < a.w) (hh : 0 < a.h) :
    obj_touching a a = true := by
  obtain ⟨hax, hay, _, _, haxw, hayh⟩ := ha
  have e1 := toInt32_of_isInt _ hax
  have e2 := toInt32_of_isInt _ hay
  have e3 := toInt32_of_isInt _ haxw
  have e4 := toInt32_of_isInt _ hayh
  simp only [obj_touching, e1, e2, e3, e4, Bool.and_eq_true, Bool.not_eq_true',
    decide_eq_false_iff_not, ge_iff_le, not_le]
  exact ⟨⟨⟨by omega, by omega⟩, by omega⟩, by omega⟩

/-- Witness of C7: the initial rectangle of the entity. -/
theorem obj_touching_self_witness :
    Representable ⟨0, 0, 88, 88⟩ ∧
    (0 : Int) < (⟨0, 0, 88, 88⟩ : SDL_Rect).w ∧ (0 : Int) < (⟨0, 0, 88, 88⟩ : SDL_Rect).h ∧
    obj_touching ⟨0, 0, 88, 88⟩ ⟨0, 0, 88, 88⟩ = true :=
  ⟨by simp +decide [Representable, IsInt], by decide, by decide,
   obj_touching_self ⟨0, 0, 88, 88⟩ (by simp +decide [Representable, IsInt])
     (by decide) (by decide)⟩

/-- Counterexample to C7 as stated. The rectangle `(2147483647, 0, 1, 1)` has
positive width and height, but `obj_touching` is false of it and itself: the
sum `2147483647 + 1` overflows `int`. -/
theorem obj_touching_self_fails_on_overflow :
    (0 : Int) < (⟨2147483647, 0, 1, 1⟩ : SDL_Rect).w ∧
    (0 : Int) < (⟨2147483647, 0, 1, 1⟩ : SDL_Rect).h ∧
    obj_touching ⟨2147483647, 0, 1, 1⟩ ⟨2147483647, 0, 1, 1⟩ = false ∧
    ¬ (obj_touching ⟨2147483647, 0, 1, 1⟩ ⟨2147483647, 0, 1, 1⟩ = true) := by
  decide

/-- C8 (`obj_in_bounds` checks the origin only). For every rectangle `r`,
`obj_in_bounds r` is true if and only if `0 ≤ r.x ≤ 800` and `0 ≤ r.y ≤ 600`,
both limits inclusive; the width and the height play no part. -/
theorem obj_in_bounds_iff_origin (r : SDL_Rect) :
    (obj_in_bounds r = true ↔ (0 ≤ r.x ∧ r.x ≤ 800 ∧ 0 ≤ r.y ∧ r.y ≤ 600)) ∧
    (∀ w h : Int, obj_in_bounds { r with w := w, h := h } = obj_in_bounds r) ∧
    obj_in_bounds { x := 800, y := 600, w := r.w, h := r.h } = true ∧
    obj_in_bounds { x := 0, y := 0, w := r.w, h := r.h } = true := by
  refine ⟨?_, fun _ _ => rfl, by simp [obj_in_bounds, SCREEN_WIDTH, SCREEN_HEIGHT],
    by simp [obj_in_bounds, SCREEN_WIDTH, SCREEN_HEIGHT]⟩
  simp only [obj_in_bounds, SCREEN_WIDTH, SCREEN_HEIGHT]
  split_ifs <;> simp <;> omega

/-! ## The button switch and the texture cycle -/

theorem game_loop_cake_frame (ins : List TickInput) :
    ∀ s : GameState, all_run ins → INT_MIN ≤ s.cake_frame →
      s.cake_frame + ((ins.filter presses_A).length : Int) ≤ INT_MAX →
      (game_loop s ins).cake_frame = s.cake_frame + ((ins.filter presses_A).length : Int) := by
  induction ins with
  | nil => intro s _ _ _; simp [game_loop]
  | cons i rest ih =>
    intro s hrun hlo hhi
    have hi := hrun i (List.mem_cons_self _ _)
    have hrest : all_run rest := fun j hj => hrun j (List.mem_cons_of_mem _ hj)
    have hq : i.quit = false := hi.1
    have hs : toChar i.button_code ≠ START := hi.2
    simp only [INT_MIN, INT_MAX] at hlo hhi ih
    by_cases hA : toChar i.button_code = A
    · have hp : presses_A i = true := by simp [presses_A, hA]
      have hlen : ((List.filter presses_A (i :: rest)).length : Int)
          = ((rest.filter presses_A).length : Int) + 1 := by
        simp [List.filter_cons, hp]
      rw [hlen] at hhi ⊢
      have e : toInt32 (s.cake_frame + 1) = s.cake_frame + 1 :=
        toInt32_of_range _ (by omega) (by omega)
      simp only [game_loop, hq, tick, button_switch, hA, if_true, Bool.false_eq_true, if_false,
        e]
      rw [ih _ hrest (by dsimp only; omega) (by dsimp only; omega)]
      ring
    · have hp : presses_A i = false := by simp [presses_A, hA]
      have hlen : ((List.filter presses_A (i :: rest)).length : Int)
          = ((rest.filter presses_A).length : Int) := by
        simp [List.filter_cons, hp]
      rw [hlen] at hhi ⊢
      by_cases hB : toChar i.button_code = B
      · have hBA : ¬ B = A := by decide
        simp only [game_loop, hq, tick, button_switch, hB, hBA, if_true, Bool.false_eq_true,
          if_false]
        exact ih _ hrest hlo hhi
      · simp only [game_loop, hq, tick, button_switch, hA, hB, hs, Bool.false_eq_true,
          if_false]
        exact ih _ hrest hlo hhi

/-- The texture cycle over the `char` that the switch reads: after any
iterations that all run to their end and of which `n - 1` reach `case A`, an
iteration that reaches `case A` assigns the texture of index `n mod 13`, as
long as the counter `n` is a value of `int`. -/
theorem texture_cycle_of_char (ins : List TickInput) (n dir : Nat) (code : Int)
    (hrun : all_run ins) (hn : n = (ins.filter presses_A).length + 1)
    (hA : toChar code = A) (hmax : (n : Int) ≤ INT_MAX) :
    (tick dir code (game_loop initial_state ins)).1.cake.texture = ((n % 13 : Nat) : Int) ∧
    n % 13 < 13 ∧
    (tick dir code (game_loop initial_state ins)).2 = Flow.next ∧
    textures_of_A_presses initial_state 13 = [1, 2, 3, 4, 5, 6, 7, 8, 9, 10, 11, 12, 0] := by
  have hn' : (((ins.filter presses_A).length : Nat) : Int) = (n : Int) - 1 := by
    rw [hn]; push_cast; ring
  have hc := game_loop_cake_frame ins initial_state hrun (by decide)
    (by rw [hn']; simp only [initial_state, INT_MAX] at hmax ⊢; omega)
  have hc' : (game_loop initial_state ins).cake_frame = (n : Int) := by
    rw [hc, hn']
    simp [initial_state]
  refine ⟨?_, Nat.mod_lt _ (by decide), ?_, by decide⟩
  · simp only [tick, button_switch, hA, if_true, hc']
    exact (Int.ofNat_tmod n 13).symm
  · simp only [tick, button_switch, hA, if_true]

/-- C9 (the texture cycle is broken by button 257). From the initial state,
a tick with button 257 the lowest one pressed and then a tick with button 1
the lowest one pressed: `get_button` returns 257 and then 1, so the second
tick is the first whose button is A, and it assigns texture 2, not
`1 mod 13 = 1`. The 257 is stored in a `char`, where it becomes 1, takes
`case A` and advances the frame counter. -/
theorem texture_cycle_broken_by_button_257 :
    get_button (List.replicate 257 false ++ [true]) = 257 ∧ (257 : Int) ≠ A ∧
    get_button [false, true] = A ∧
    (game_loop initial_state
      [read_devices ⟨[], [], List.replicate 257 false ++ [true]⟩,
       read_devices ⟨[], [], [false, true]⟩]).cake.texture = 2 ∧
    ((1 % 13 : Nat) : Int) ≠ 2 := by
  decide

/-- C10, as amended (diagonal tick where no operation overflows). For every
state whose entity has `int` fields, with `800 - w`, `600 - h`, `x + 10` and
`y + 10` values of `int`, and with `x < 800 - w` and `y < 600 - h`, one tick
with direction mask `RIGHT | DOWN` and button code -1 moves the entity to
`(x + 10, y + 10, w, h)`, leaves its texture and the frame counter unchanged
and stays in the loop; the initial entity `(0, 0, 88, 88)` becomes
`(10, 10, 88, 88)`. -/
theorem diagonal_tick (s : GameState) (hfit : DiagonalStepFits s.cake.rect)
    (hx : s.cake.rect.x < 800 - s.cake.rect.w) (hy : s.cake.rect.y < 600 - s.cake.rect.h) :
    tick (RIGHT ||| DOWN) (-1) s
        = ({ cake := { rect := { x := s.cake.rect.x + 10, y := s.cake.rect.y + 10,
                                 w := s.cake.rect.w, h := s.cake.rect.h },
                       texture := s.cake.texture },
             cake_frame := s.cake_frame }, Flow.next) ∧
      (tick (RIGHT ||| DOWN) (-1) initial_state).1.cake.rect
        = { x := 10, y := 10, w := 88, h := 88 } := by
  refine ⟨?_, by decide⟩
  simp only [DiagonalStepFits, SCREEN_WIDTH, SCREEN_HEIGHT, x_vel, y_vel] at hfit
  obtain ⟨hix, hiy, _, _, hiw, hih, hsx, hsy⟩ := hfit
  have e1 := toInt32_of_isInt _ hix
  have e2 := toInt32_of_isInt _ hiy
  have e3 := toInt32_of_isInt _ hiw
  have e4 := toInt32_of_isInt _ hih
  have e5 := toInt32_of_isInt _ hsx
  have e6 := toInt32_of_isInt _ hsy
  have h1 : (RIGHT ||| DOWN) ≠ 0 := by decide
  have h2 : (RIGHT ||| DOWN) &&& DOWN ≠ 0 := by decide
  have h3 : ¬ ((RIGHT ||| DOWN) &&& UP ≠ 0) := by decide
  have h4 : (RIGHT ||| DOWN) &&& RIGHT ≠ 0 := by decide
  have h5 : ¬ ((RIGHT ||| DOWN) &&& LEFT ≠ 0) := by decide
  have hb1 : toChar (-1) ≠ A := by decide
  have hb2 : toChar (-1) ≠ B := by decide
  have hb3 : toChar (-1) ≠ START := by decide
  simp only [tick, button_switch, move, h1, h2, h3, h4, h5, hb1, hb2, hb3, if_true, if_false,
    ne_eq, not_false_eq_true, SCREEN_WIDTH, SCREEN_HEIGHT, e1, e2, e3, e4, e5, e6, hx, hy,
    x_vel, y_vel]

/-- Witness of C10: the initial state. -/
theorem diagonal_tick_witness :
    DiagonalStepFits initial_state.cake.rect ∧
    initial_state.cake.rect.x < 800 - initial_state.cake.rect.w ∧
    initial_state.cake.rect.y < 600 - initial_state.cake.rect.h ∧
    tick (RIGHT ||| DOWN) (-1) initial_state
      = ({ cake := { rect := { x := initial_state.cake.rect.x + 10,
                               y := initial_state.cake.rect.y + 10,
                               w := initial_state.cake.rect.w, h := initial_state.cake.rect.h },
                     texture := initial_state.cake.texture },
           cake_frame := initial_state.cake_frame }, Flow.next) :=
  ⟨by simp +decide [DiagonalStepFits, IsInt], by decide, by decide,
   (diagonal_tick initial_state (by simp +decide [DiagonalStepFits, IsInt])
     (by decide) (by decide)).1⟩

/-- Counterexample to C10 as stated. The entity `(0, 0, INT_MIN, INT_MIN)`
has `x < 800 - w` and `y < 600 - h`, but a tick with `RIGHT | DOWN` and button
code -1 leaves it at `(0, 0)`: `800 - w` and `600 - h` overflow `int` and both
guards fail. The entity `(2147483639, 0, -2147482847, 88)` has them too, and
the tick takes it to `x = -2147483647`: there `x + 10` overflows. -/
theorem diagonal_tick_fails_on_overflow :
    (0 : Int) < 800 - (-2147483648) ∧ (0 : Int) < 600 - (-2147483648) ∧
    (tick (RIGHT ||| DOWN) (-1) ⟨⟨⟨0, 0, -2147483648, -2147483648⟩, 0⟩, 1⟩).1.cake.rect
      = ⟨0, 0, -2147483648, -2147483648⟩ ∧
    (tick (RIGHT ||| DOWN) (-1) ⟨⟨⟨0, 0, -2147483648, -2147483648⟩, 0⟩, 1⟩).1.cake.rect
      ≠ ⟨0 + 10, 0 + 10, -2147483648, -2147483648⟩ ∧
    (2147483639 : Int) < 800 - (-2147482847) ∧ (0 : Int) < 600 - 88 ∧
    (tick (RIGHT ||| DOWN) (-1) ⟨⟨⟨2147483639, 0, -2147482847, 88⟩, 0⟩, 1⟩).1.cake.rect
      = ⟨-2147483647, 10, -2147482847, 88⟩ := by
  decide

/-! ## Helper lemmas on one tick -/

theorem button_switch_rect (button : Int) (s : GameState) :
    (button_switch button s).1.cake.rect = s.cake.rect := by
  simp only [button_switch]
  split_ifs <;> rfl

theorem tick_rect (dir : Nat) (code : Int) (s : GameState) :
    (tick dir code s).1.cake.rect = move dir s.cake.rect := by
  simp only [tick, button_switch_rect]

theorem button_switch_exits (button : Int) (s : GameState) :
    (button_switch button s).2 = Flow.exit_gameloop ↔ button = START := by
  simp only [button_switch]
  split_ifs with h1 h2 h3
  · subst h1; simp +decide
  · subst h2; simp +decide
  · simp [h3]
  · simp [h3]

theorem transition_exiting (i : TickInput) (s : GameState) :
    transition i s = LoopState.EXITING ↔ (i.quit = true ∨ toChar i.button_code = START) := by
  have hsw := button_switch_exits (toChar i.button_code)
    { s with cake := { s.cake with rect := move i.dir s.cake.rect } }
  cases hq : i.quit with
  | true => simp [transition, hq]
  | false =>
    simp only [transition, hq, Bool.false_eq_true, if_false, false_or]
    rw [← hsw]
    simp only [tick]
    cases (button_switch (toChar i.button_code)
      { s with cake := { s.cake with rect := move i.dir s.cake.rect } }).2 <;> simp

theorem toChar_START_in_range (code : Int) (h0 : -1 ≤ code) (h1 : code ≤ 255) :
    toChar code = START ↔ code = 9 := by
  simp only [toChar, START]
  omega

theorem toChar_A_in_range (code : Int) (h0 : -1 ≤ code) (h1 : code ≤ 255) :
    toChar code = A ↔ code = 1 := by
  simp only [toChar, A]
  omega

/-! ## Clamping and the button switch -/

/-- C11 (clamping at the screen edges). For every state and every button
code, a tick with direction `LEFT` on an entity at `x = 0` leaves the
rectangle as it is, and so does a tick with `RIGHT` at `x = 800 - w`, with
`UP` at `y = 0` and with `DOWN` at `y = 600 - h`. -/
theorem clamped_at_edges (s : GameState) (code : Int) :
    (s.cake.rect.x = 0 → (tick LEFT code s).1.cake.rect = s.cake.rect) ∧
    (s.cake.rect.x = 800 - s.cake.rect.w → (tick RIGHT code s).1.cake.rect = s.cake.rect) ∧
    (s.cake.rect.y = 0 → (tick UP code s).1.cake.rect = s.cake.rect) ∧
    (s.cake.rect.y = 600 - s.cake.rect.h → (tick DOWN code s).1.cake.rect = s.cake.rect) := by
  refine ⟨?_, ?_, ?_, ?_⟩ <;> intro h <;> rw [tick_rect] <;>
    simp +decide [move, LEFT, RIGHT, UP, DOWN, SCREEN_WIDTH, SCREEN_HEIGHT, h]

/-- Witness of C11: the entity at the top left corner with `LEFT`, and at
`(712, 512)`, where `x = 800 - w` and `y = 600 - h`, with `DOWN`. -/
theorem clamped_at_edges_witness :
    (tick LEFT (-1) initial_state).1.cake.rect = initial_state.cake.rect ∧
    (tick DOWN (-1) ⟨⟨⟨712, 512, 88, 88⟩, 0⟩, 1⟩).1.cake.rect = ⟨712, 512, 88, 88⟩ :=
  ⟨(clamped_at_edges initial_state (-1)).1 (by decide),
   (clamped_at_edges ⟨⟨⟨712, 512, 88, 88⟩, 0⟩, 1⟩ (-1)).2.2.2 (by decide)⟩

/-- C12 (the loop does not leave `RUNNING` on button code 9 only). With no
event queued and button 265 the lowest one pressed, `get_button` returns 265,
which is not 9, and the iteration ends in `EXITING`: the code is stored in a
`char`, where 265 becomes 9 and matches `case START`. -/
theorem exit_on_button_265 :
    game_running [] = true ∧
    get_button (List.replicate 265 false ++ [true]) = 265 ∧
    (265 : Int) ≠ START ∧
    transition (read_devices ⟨[], [], List.replicate 265 false ++ [true]⟩) initial_state
      = LoopState.EXITING := by
  decide

/-- C13 (a button other than A changes the texture). With button 257 the
lowest one pressed, `get_button` returns 257, which is not 1, and the tick
moves the entity from texture 0 to texture 1 and the frame counter from 1 to
2: the code is stored in a `char`, where 257 becomes 1 and matches `case A`. -/
theorem texture_changes_on_button_257 :
    get_button (List.replicate 257 false ++ [true]) = 257 ∧
    (257 : Int) ≠ A ∧
    initial_state.cake.texture = 0 ∧ initial_state.cake_frame = 1 ∧
    (tick 0 (get_button (List.replicate 257 false ++ [true])) initial_state).1.cake.texture = 1 ∧
    (tick 0 (get_button (List.replicate 257 false ++ [true])) initial_state).1.cake_frame = 2 := by
  decide

/-! ## The exit status -/

theorem loop_ends_iff (ins : List TickInput) :
    ∀ s : GameState, loop_ends s ins = true ↔
      ∃ i ∈ ins, i.quit = true ∨ toChar i.button_code = START := by
  induction ins with
  | nil => intro s; simp [loop_ends]
  | cons i rest ih =>
    intro s
    have hsw := button_switch_exits (toChar i.button_code)
      { s with cake := { s.cake with rect := move i.dir s.cake.rect } }
    cases hq : i.quit with
    | true =>
      simp only [loop_ends, hq, if_true, true_iff]
      exact ⟨i, List.mem_cons_self _ _, Or.inl hq⟩
    | false =>
      simp only [loop_ends, hq, Bool.false_eq_true, if_false, List.mem_cons, exists_eq_or_imp,
        false_or]
      rcases ht : tick i.dir i.button_code s with ⟨s', f⟩
      have hf : f = Flow.exit_gameloop ↔ toChar i.button_code = START := by
        rw [← hsw]
        simp only [tick] at ht
        rw [ht]
      cases f with
      | next =>
        have hne : ¬ toChar i.button_code = START := fun h => by
          have := hf.mpr h
          cases this
        simp only [hne, false_or]
        exact ih s'
      | exit_gameloop =>
        have he : toChar i.button_code = START := hf.mp rfl
        simp [he]

/-- C14 (exit status). Over the results of its collaborators, `main` ends
with the non-zero status `EXIT_FAILURE` and without reaching the frame loop
when `IMG_Init` does not report PNG support or `SDL_NumJoysticks` returns 0,
whatever the later readings are. Otherwise it reaches the loop, the loop ends
exactly when some iteration polls a quit event or decodes START, the status
is then 0, and no other status is returned. -/
theorem main_exit_status (img_flags : Nat) (num_joysticks : Int) (ins : List TickInput) :
    ((img_flags &&& IMG_INIT_PNG = 0 ∨ num_joysticks = 0) →
      main img_flags num_joysticks ins
        = { entered_loop := false, status := some EXIT_FAILURE } ∧ EXIT_FAILURE ≠ 0) ∧
    (¬ (img_flags &&& IMG_INIT_PNG = 0 ∨ num_joysticks = 0) →
      (main img_flags num_joysticks ins).entered_loop = true ∧
      ((∃ i ∈ ins, i.quit = true ∨ toChar i.button_code = START) →
        (main img_flags num_joysticks ins).status = some 0) ∧
      (∀ st, (main img_flags num_joysticks ins).status = some st → st = 0) ∧
      (loop_ends initial_state ins = true →
        (main img_flags num_joysticks ins).status = some 0)) := by
  constructor
  · rintro (h | h)
    · simp +decide [main, h]
    · by_cases h' : img_flags &&& IMG_INIT_PNG = 0 <;> simp +decide [main, h, h']
  · intro h
    have h1 : ¬ img_flags &&& IMG_INIT_PNG = 0 := fun h' => h (Or.inl h')
    have h2 : num_joysticks ≠ 0 := fun h' => h (Or.inr h')
    refine ⟨by simp [main, h1, h2], ?_, ?_, ?_⟩
    · intro hex
      have := (loop_ends_iff ins initial_state).mpr hex
      simp [main, h1, h2, this]
    · intro st hst
      simp only [main, h1, h2, if_false, ne_eq, not_false_eq_true, if_true] at hst
      split_ifs at hst
      simpa using hst.symm
    · intro hend
      simp [main, h1, h2, hend]

/-- Witness of C14: no joystick gives status 1 without the loop; with PNG
support and one joystick, a run whose second iteration decodes START gives
status 0. -/
theorem main_exit_status_witness :
    main 2 0 [⟨false, 0, 9⟩] = { entered_loop := false, status := some EXIT_FAILURE } ∧
    (main 2 1 [⟨false, 8, -1⟩, ⟨false, 0, 9⟩]).status = some 0 :=
  ⟨((main_exit_status 2 0 [⟨false, 0, 9⟩]).1 (Or.inr rfl)).1,
   ((main_exit_status 2 1 [⟨false, 8, -1⟩, ⟨false, 0, 9⟩]).2 (by decide)).2.1
     ⟨⟨false, 0, 9⟩, by simp, Or.inr (by decide)⟩⟩

/-! ## Edges of the rectangle predicates -/

/-- C15 (shared edges do not touch). For all rectangles `a` and `b`, if the
right edge of `a` is the left edge of `b`, or the bottom edge of `a` is the
top edge of `b`, then `obj_touching a b` is false. -/
theorem obj_touching_shared_edge (a b : SDL_Rect) :
    (a.x + a.w = b.x → obj_touching a b = false) ∧
    (a.y + a.h = b.y → obj_touching a b = false) := by
  constructor <;> intro h <;>
    simp only [obj_touching, h, Bool.and_eq_false_imp, Bool.and_eq_true, Bool.not_eq_true',
      Bool.not_eq_false', decide_eq_false_iff_not, decide_eq_true_eq, ge_iff_le, not_le] <;>
    intros <;> omega

/-- Witness of C15: the initial rectangle of the entity and the rectangles
that start at its right edge and at its bottom edge. -/
theorem obj_touching_shared_edge_witness :
    obj_touching ⟨0, 0, 88, 88⟩ ⟨88, 0, 88, 88⟩ = false ∧
    obj_touching ⟨0, 0, 88, 88⟩ ⟨0, 88, 88, 88⟩ = false :=
  ⟨(obj_touching_shared_edge ⟨0, 0, 88, 88⟩ ⟨88, 0, 88, 88⟩).1 (by decide),
   (obj_touching_shared_edge ⟨0, 0, 88, 88⟩ ⟨0, 88, 88, 88⟩).2 (by decide)⟩

/-- C16 (looseness of `obj_in_bounds`). The rectangle `(800, 600, 88, 88)`
has positive width and height and `obj_in_bounds` is true of it, although it
reaches to `x = 888` and `y = 688`, past the screen on both axes; so there is
a rectangle that is in bounds and extends off-screen. -/
theorem obj_in_bounds_loose :
    obj_in_bounds ⟨800, 600, 88, 88⟩ = true ∧
    (800 : Int) + 88 > SCREEN_WIDTH ∧ (600 : Int) + 88 > SCREEN_HEIGHT ∧
    ∃ r : SDL_Rect, 0 < r.w ∧ 0 < r.h ∧ obj_in_bounds r = true ∧
      (r.x + r.w > 800 ∨ r.y + r.h > 600) := by
  refine ⟨by decide, by decide, by decide, ⟨800, 600, 88, 88⟩, by decide, by decide,
    by decide, Or.inl (by decide)⟩

/-! ## Movement: decomposition and reachable positions -/

theorem step_down_reachable (c : Prop) [Decidable c] (r : SDL_Rect) (h : Reachable r) :
    Reachable (if c then
      (if toInt32 r.y < toInt32 (SCREEN_HEIGHT - r.h) then
        { r with y := toInt32 (r.y + y_vel) } else r) else r) := by
  obtain ⟨hw, hh, hx, hy, hx0, hx1, hy0, hy1⟩ := h
  have e1 : toInt32 r.y = r.y := toInt32_of_range _ (by omega) (by omega)
  have e2 : toInt32 (SCREEN_HEIGHT - r.h) = 512 := by
    rw [hh]
    decide
  have e3 : toInt32 (r.y + y_vel) = r.y + 10 :=
    toInt32_of_range _ (by simp only [y_vel]; omega) (by simp only [y_vel]; omega)
  simp only [e1, e2, e3]
  split_ifs <;> refine ⟨?_, ?_, ?_, ?_, ?_, ?_, ?_, ?_⟩ <;> (try dsimp only) <;> omega

theorem step_up_reachable (c : Prop) [Decidable c] (r : SDL_Rect) (h : Reachable r) :
    Reachable (if c then
      (if r.y > 0 then { r with y := toInt32 (r.y - y_vel) } else r) else r) := by
  obtain ⟨hw, hh, hx, hy, hx0, hx1, hy0, hy1⟩ := h
  have e3 : toInt32 (r.y - y_vel) = r.y - 10 :=
    toInt32_of_range _ (by simp only [y_vel]; omega) (by simp only [y_vel]; omega)
  simp only [e3]
  split_ifs <;> refine ⟨?_, ?_, ?_, ?_, ?_, ?_, ?_, ?_⟩ <;> (try dsimp only) <;> omega

theorem step_right_reachable (c : Prop) [Decidable c] (r : SDL_Rect) (h : Reachable r) :
    Reachable (if c then
      (if toInt32 r.x < toInt32 (SCREEN_WIDTH - r.w) then
        { r with x := toInt32 (r.x + x_vel) } else r) else r) := by
  obtain ⟨hw, hh, hx, hy, hx0, hx1, hy0, hy1⟩ := h
  have e1 : toInt32 r.x = r.x := toInt32_of_range _ (by omega) (by omega)
  have e2 : toInt32 (SCREEN_WIDTH - r.w) = 712 := by
    rw [hw]
    decide
  have e3 : toInt32 (r.x + x_vel) = r.x + 10 :=
    toInt32_of_range _ (by simp only [x_vel]; omega) (by simp only [x_vel]; omega)
  simp only [e1, e2, e3]
  split_ifs <;> refine ⟨?_, ?_, ?_, ?_, ?_, ?_, ?_, ?_⟩ <;> (try dsimp only) <;> omega

theorem step_left_reachable (c : Prop) [Decidable c] (r : SDL_Rect) (h : Reachable r) :
    Reachable (if c then
      (if r.x > 0 then { r with x := toInt32 (r.x - x_vel) } else r) else r) := by
  obtain ⟨hw, hh, hx, hy, hx0, hx1, hy0, hy1⟩ := h
  have e3 : toInt32 (r.x - x_vel) = r.x - 10 :=
    toInt32_of_range _ (by simp only [x_vel]; omega) (by simp only [x_vel]; omega)
  simp only [e3]
  split_ifs <;> refine ⟨?_, ?_, ?_, ?_, ?_, ?_, ?_, ?_⟩ <;> (try dsimp only) <;> omega

theorem move_reachable (dir : Nat) (r : SDL_Rect) (h : Reachable r) :
    Reachable (move dir r) := by
  unfold move
  split
  · exact step_left_reachable _ _
      (step_right_reachable _ _ (step_up_reachable _ _ (step_down_reachable _ _ h)))
  · exact h

theorem game_loop_reachable (ins : List TickInput) :
    ∀ s : GameState, Reachable s.cake.rect → Reachable (game_loop s ins).cake.rect := by
  induction ins with
  | nil => intro s h; exact h
  | cons i rest ih =>
    intro s h
    have hm : Reachable (tick i.dir i.button_code s).1.cake.rect := by
      rw [tick_rect]
      exact move_reachable _ _ h
    cases hq : i.quit with
    | true => simpa [game_loop, hq] using h
    | false =>
      simp only [game_loop, hq, Bool.false_eq_true, if_false]
      rcases ht : tick i.dir i.button_code s with ⟨s', f⟩
      rw [ht] at hm
      cases f with
      | next => exact ih s' hm
      | exit_gameloop => exact hm

theorem get_direction_mem (a : List Int) :
    get_direction a ∈ [0, 1, 2, 4, 5, 6, 8, 9, 10] := by
  match a with
  | [] => simp [get_direction_nil]
  | [x] =>
    rw [get_direction_single]
    rcases get_direction_single_cases x with ⟨_, hv⟩ | ⟨_, hv⟩ | ⟨_, hv⟩ <;> rw [hv] <;> simp
  | x :: y :: rest =>
    rw [get_direction_pair]
    rcases get_direction_body_cases x y with
      ⟨_, _, hv⟩ | ⟨_, _, hv⟩ | ⟨_, _, hv⟩ | ⟨_, _, hv⟩ | ⟨_, _, hv⟩ |
      ⟨_, _, hv⟩ | ⟨_, _, hv⟩ | ⟨_, _, hv⟩ | ⟨_, _, hv⟩ <;> rw [hv] <;> simp

/-- C17 (diagonal movement decomposes per axis). For every rectangle, every
vertical bit `v` of `UP`, `DOWN` and every horizontal bit `h` of `LEFT`,
`RIGHT`, the movement step with mask `v | h` is the step with `v` followed by
the step with `h`, and the two steps commute; a mask without `LEFT` and
`RIGHT` leaves `x` as it is and a mask without `UP` and `DOWN` leaves `y` as
it is. -/
theorem move_diagonal_decomposes (r : SDL_Rect) (v h : Nat)
    (hv : v = UP ∨ v = DOWN) (hh : h = LEFT ∨ h = RIGHT) :
    move (v ||| h) r = move h (move v r) ∧
    move h (move v r) = move v (move h r) ∧
    (∀ d : Nat, d &&& LEFT = 0 → d &&& RIGHT = 0 → (move d r).x = r.x) ∧
    (∀ d : Nat, d &&& UP = 0 → d &&& DOWN = 0 → (move d r).y = r.y) := by
  refine ⟨?_, ?_, ?_, ?_⟩
  · rcases hv with hv | hv <;> rcases hh with hh | hh <;> subst hv <;> subst hh <;>
      simp +decide only [move, UP, DOWN, LEFT, RIGHT, if_true, if_false, ne_eq,
        not_true_eq_false, not_false_eq_true]
  · rcases hv with hv | hv <;> rcases hh with hh | hh <;> subst hv <;> subst hh <;>
      simp +decide only [move, UP, DOWN, LEFT, RIGHT, if_true, if_false, ne_eq,
        not_true_eq_false, not_false_eq_true] <;>
      split_ifs <;> rfl
  · intro d h1 h2
    simp only [move, h1, h2, ne_eq, not_true_eq_false, if_false]
    split_ifs <;> rfl
  · intro d h1 h2
    simp only [move, h1, h2, ne_eq, not_true_eq_false, if_false]
    split_ifs <;> rfl

/-- Witness of C17: the initial rectangle with `DOWN` and `RIGHT`. -/
theorem move_diagonal_decomposes_witness :
    (DOWN = UP ∨ DOWN = DOWN) ∧ (RIGHT = LEFT ∨ RIGHT = RIGHT) ∧
    move (DOWN ||| RIGHT) ⟨0, 0, 88, 88⟩ = move RIGHT (move DOWN ⟨0, 0, 88, 88⟩) :=
  ⟨Or.inr rfl, Or.inr rfl,
   (move_diagonal_decomposes ⟨0, 0, 88, 88⟩ DOWN RIGHT (Or.inr rfl) (Or.inr rfl)).1⟩

/-- C18 (reachable positions). Whatever the readings of the iterations are
(quit events, direction masks, button codes), the entity that the loop has
reached from the initial state has `w = h = 88`, `x` and `y` multiples of 10,
`0 ≤ x ≤ 720` and `0 ≤ y ≤ 520`. -/
theorem reachable_positions (ins : List TickInput) :
    (game_loop initial_state ins).cake.rect.w = 88 ∧
    (game_loop initial_state ins).cake.rect.h = 88 ∧
    10 ∣ (game_loop initial_state ins).cake.rect.x ∧
    10 ∣ (game_loop initial_state ins).cake.rect.y ∧
    0 ≤ (game_loop initial_state ins).cake.rect.x ∧
    (game_loop initial_state ins).cake.rect.x ≤ 720 ∧
    0 ≤ (game_loop initial_state ins).cake.rect.y ∧
    (game_loop initial_state ins).cake.rect.y ≤ 520 :=
  game_loop_reachable ins initial_state (by
    refine ⟨by decide, by decide, by decide, by decide, by decide, by decide, by decide,
      by decide⟩)

/-! ## The sleep length and the decoded masks -/

/-- C19 (actual sleep length). For all tick counts `s` at the start of the
tick and `c` after rendering, the argument of `SDL_Delay` is
`(20 + (c - s)) mod 2^32`; so when the elapsed time `e = (c - s) mod 2^32` is
below `2^32 - 20`, the loop sleeps `20 + e` ms, which is at least 20 ms. The
counts are reduced modulo `2^32` on entry, so the statement holds for every
unsigned 32-bit count. -/
theorem frame_delay_wraps (s c : Int) :
    frame_delay s c = (20 + (c - s)) % 2 ^ 32 ∧
    ((c - s) % 2 ^ 32 < 2 ^ 32 - 20 →
      frame_delay s c = 20 + (c - s) % 2 ^ 32 ∧ 20 ≤ frame_delay s c) := by
  have key : frame_delay s c = (20 + (c - s)) % 2 ^ 32 := by
    simp only [frame_delay, toUint32, toInt32]
    norm_num
    split_ifs <;> omega
  refine ⟨key, ?_⟩
  intro he
  rw [key]
  norm_num at he ⊢
  omega

/-- Witness of C19: a tick that starts at 100 ms and is rendered at 105 ms
sleeps 25 ms; one that starts at `2^32 - 6` and is rendered at 3, after the
count has wrapped, sleeps 29 ms. -/
theorem frame_delay_wraps_witness :
    (frame_delay 100 105 = 20 + (105 - 100) % 2 ^ 32 ∧ 20 ≤ frame_delay 100 105) ∧
    (frame_delay 4294967290 3 = 20 + (3 - 4294967290) % 2 ^ 32 ∧
      20 ≤ frame_delay 4294967290 3) :=
  ⟨(frame_delay_wraps 100 105).2 (by decide), (frame_delay_wraps 4294967290 3).2 (by decide)⟩

/-- C20 (decoded masks are never contradictory). For every list of axis
readings, the mask that `get_direction` returns lies in `0..15`, has no bit
outside `UP | DOWN | LEFT | RIGHT`, does not have both `UP` and `DOWN`, and
does not have both `LEFT` and `RIGHT`. -/
theorem get_direction_consistent (a : List Int) :
    get_direction a < 16 ∧
    get_direction a &&& (UP ||| DOWN ||| LEFT ||| RIGHT) = get_direction a ∧
    ¬ (get_direction a &&& UP ≠ 0 ∧ get_direction a &&& DOWN ≠ 0) ∧
    ¬ (get_direction a &&& LEFT ≠ 0 ∧ get_direction a &&& RIGHT ≠ 0) := by
  have h := get_direction_mem a
  simp only [List.mem_cons, List.mem_singleton, List.not_mem_nil, or_false] at h
  rcases h with h | h | h | h | h | h | h | h | h <;> rw [h] <;> decide

end Candymatch
